import Mathlib

/-!
Verification of the job-orchestration subsystem's Status Store
(`RepositoryObjectClient`) and of the plugin startup sequence (`init`).

The Status Store client is a thin wrapper over an external document store
(Elasticsearch): we embed documents as association lists of JSON-like
values, the store as an association list from document keys to documents,
and each client method as a state-passing function that also reports how
many document-store calls it performed.
-/

/-- A JSON-like value: the payloads the Status Store reads and writes
(worker-progress records, repository metadata) are JSON objects. -/
inductive JValue : Type where
  | str : String → JValue
  | num : Int → JValue
  | bool : Bool → JValue
  | obj : List (String × JValue) → JValue

/-- Look a field up in a JSON object's field list (first occurrence wins,
as in a JS object where keys are unique). -/
def lookupField : List (String × JValue) → String → Option JValue
  | [], _ => none
  | (k, v) :: fs, key => if k = key then some v else lookupField fs key

/-- Set field `k` to `w` in a field list, combining with an existing value
through `c` when the field is already present, appending otherwise. -/
def setFieldWith (c : JValue → JValue → JValue) :
    List (String × JValue) → String → JValue → List (String × JValue)
  | [], k, w => [(k, w)]
  | (k0, v) :: fs, k, w =>
    if k0 = k then (k0, c v w) :: fs else (k0, v) :: setFieldWith c fs k w

/-- Merge the fields of `gs` into `fs`, replacing the value of every field
named in `gs` and keeping every other field of `fs` unchanged. -/
def mergeRecord (fs gs : List (String × JValue)) : List (String × JValue) :=
  gs.foldl (fun acc kw => setFieldWith (fun _ w => w) acc kw.1 kw.2) fs

/-- Modelled from the spec: how the document store combines a field's new
value with its stored value on `update` (the store itself is an external
collaborator, not under src). Per the spec's update contract, when both
values are record objects the given fields are merged into the existing
record; otherwise the new value replaces the old. -/
def mergeValue : JValue → JValue → JValue
  | JValue.obj fs, JValue.obj gs => JValue.obj (mergeRecord fs gs)
  | _, w => w

/-- A document is a JSON object at top level: a list of named fields. -/
abbrev Doc := List (String × JValue)

/-- Modelled from the spec: the document store's partial update merges the
fields of the given document into the stored document, field by field. -/
def mergeDoc (old new : Doc) : Doc :=
  new.foldl (fun acc kw => setFieldWith mergeValue acc kw.1 kw.2) old

/-- The identity of one stored document: index name, mapping type, and id
(the triple every `esClient` call addresses). -/
structure DocKey : Type where
  index : String
  docType : String
  id : String
deriving DecidableEq

/-- The document store's state: an association list from document keys to
documents (a finite map; operations keep keys unique). -/
abbrev EsState := List (DocKey × Doc)

/-- Fetch the document stored under a key, if any. -/
def getDoc : EsState → DocKey → Option Doc
  | [], _ => none
  | (k0, d) :: s, k => if k0 = k then some d else getDoc s k

/-- Remove every document stored under a key. -/
def removeDoc : EsState → DocKey → EsState
  | [], _ => []
  | (k0, d) :: s, k =>
    if k0 = k then removeDoc s k else (k0, d) :: removeDoc s k

/-- Store a document under a key, replacing any previous document there. -/
def putDoc (s : EsState) (k : DocKey) (d : Doc) : EsState :=
  (k, d) :: removeDoc s k

/-- The one error class the Status Store surfaces: NotFound. -/
inductive EsError : Type where
  | notFound
deriving DecidableEq

/-- Modelled from the spec: `esClient.get` — returns the document's source,
fails with NotFound when no document exists under the key. -/
def esGet (s : EsState) (k : DocKey) : Except EsError Doc :=
  match getDoc s k with
  | some d => Except.ok d
  | none => Except.error EsError.notFound

/-- Modelled from the spec: `esClient.index` — whole-document replace,
creating the document when absent. -/
def esIndex (s : EsState) (k : DocKey) (body : Doc) : EsState :=
  putDoc s k body

/-- Modelled from the spec: `esClient.update` — merges the given partial
document into the stored one; fails with NotFound when the document does
not exist (no implicit create). -/
def esUpdate (s : EsState) (k : DocKey) (docBody : Doc) :
    Except EsError EsState :=
  match getDoc s k with
  | some old => Except.ok (putDoc s k (mergeDoc old docBody))
  | none => Except.error EsError.notFound

/-- Modelled from the spec: `esClient.delete` — removes the document;
deleting an absent document is not an error. -/
def esDelete (s : EsState) (k : DocKey) : EsState :=
  removeDoc s k

/-- Modelled from the spec: `esClient.search` — returns the hits whose
index name starts with the given prefix, whose type matches, and whose
source has the given field, windowed by `from` and `size`. -/
def esSearch (s : EsState) (indexStart ty field : String)
    (fromN sz : Nat) : List (DocKey × Doc) :=
  ((s.filter fun kd =>
      indexStart.isPrefixOf kd.1.index && kd.1.docType == ty &&
        (lookupField kd.2 field).isSome).drop fromN).take sz

/-! Schema constants. The `../indexer/schema` module is code of this
repository that is not under src; the constants are modelled from the
spec: each repository uri derives a dedicated status index name under the
common prefix, and each stage kind has a fixed reserved field name. The
type names are chosen equal so that the status documents are visible to
the repository enumeration, as the spec's `listAllRepositories` contract
requires. -/

def RepositoryIndexNamePrefix : String := ".code-repository"

def RepositoryStatusIndexName (repoUri : String) : String :=
  RepositoryIndexNamePrefix ++ "-" ++ repoUri ++ "-status"

def RepositoryTypeName : String := "repository"

def RepositoryStatusTypeName : String := "repository"

def RepositoryReservedField : String := "repository"

def RepositoryGitStatusReservedField : String := "repository_git_status"

def RepositoryLspIndexStatusReservedField : String :=
  "repository_lsp_index_status"

def RepositoryDeleteStatusReservedField : String :=
  "repository_delete_status"

/-- The four stage kinds of a Status Record. -/
inductive StageKind : Type where
  | repositoryMetadata
  | gitCloneStatus
  | lspIndexStatus
  | deleteStatus
deriving DecidableEq

/-- The reserved field name a stage kind's records are stored under. -/
def reservedFieldOf : StageKind → String
  | StageKind.repositoryMetadata => RepositoryReservedField
  | StageKind.gitCloneStatus => RepositoryGitStatusReservedField
  | StageKind.lspIndexStatus => RepositoryLspIndexStatusReservedField
  | StageKind.deleteStatus => RepositoryDeleteStatusReservedField

namespace RepositoryObjectClient

/-- `getRepositoryObjectId`: the document id is the reserved field name. -/
def getRepositoryObjectId (reservedFieldName : String) : String :=
  reservedFieldName

/-- The document key a (repoUri, reserved field) pair addresses. -/
def objectKey (repoUri reservedFieldName : String) : DocKey :=
  { index := RepositoryStatusIndexName repoUri,
    docType := RepositoryStatusTypeName,
    id := getRepositoryObjectId reservedFieldName }

/-- `getRepositoryObject`: one `esClient.get`, then `_source[field]`
(`none` models JS `undefined` when the source lacks the field). The third
component counts the document-store calls performed. -/
def getRepositoryObject (s : EsState) (repoUri reservedFieldName : String) :
    Except EsError (Option JValue) × EsState × Nat :=
  match esGet s (objectKey repoUri reservedFieldName) with
  | Except.ok src => (Except.ok (lookupField src reservedFieldName), s, 1)
  | Except.error e => (Except.error e, s, 1)

/-- `setRepositoryObject`: one `esClient.index` of the one-field document
holding the value under the reserved field name. -/
def setRepositoryObject (s : EsState) (repoUri reservedFieldName : String)
    (obj : JValue) : Except EsError Unit × EsState × Nat :=
  (Except.ok (),
    esIndex s (objectKey repoUri reservedFieldName)
      [(reservedFieldName, obj)], 1)

/-- `updateRepositoryObject`: one `esClient.update` with the partial value
wrapped under the reserved field name. -/
def updateRepositoryObject (s : EsState) (repoUri reservedFieldName : String)
    (obj : JValue) : Except EsError Unit × EsState × Nat :=
  match esUpdate s (objectKey repoUri reservedFieldName)
      [(reservedFieldName, obj)] with
  | Except.ok s' => (Except.ok (), s', 1)
  | Except.error e => (Except.error e, s, 1)

/-- `deleteRepositoryObject`: one `esClient.delete`. -/
def deleteRepositoryObject (s : EsState) (repoUri reservedFieldName : String) :
    Except EsError Unit × EsState × Nat :=
  (Except.ok (), esDelete s (objectKey repoUri reservedFieldName), 1)

/-- `getAllRepository`: one `esClient.search` over all repository indices
for documents having the repository reserved field, `from` 0 and `size`
10000, then `hit._source[RepositoryReservedField]` on every hit. -/
def getAllRepository (s : EsState) : List (Option JValue) × EsState × Nat :=
  ((esSearch s RepositoryIndexNamePrefix RepositoryTypeName
      RepositoryReservedField 0 10000).map
    (fun hit => lookupField hit.2 RepositoryReservedField), s, 1)

/-- `getRepository`. -/
def getRepository (s : EsState) (repoUri : String) :
    Except EsError (Option JValue) × EsState × Nat :=
  getRepositoryObject s repoUri RepositoryReservedField

/-- `deleteRepository`. -/
def deleteRepository (s : EsState) (repoUri : String) :
    Except EsError Unit × EsState × Nat :=
  deleteRepositoryObject s repoUri RepositoryReservedField

/-- The Status Store's `get`, uniform in the stage kind: each per-stage
getter delegates to `getRepositoryObject` with its reserved field. -/
def statusGet (s : EsState) (repoUri : String) (st : StageKind) :
    Except EsError (Option JValue) × EsState × Nat :=
  getRepositoryObject s repoUri (reservedFieldOf st)

/-- The Status Store's `set`, uniform in the stage kind. -/
def statusSet (s : EsState) (repoUri : String) (st : StageKind)
    (v : JValue) : Except EsError Unit × EsState × Nat :=
  setRepositoryObject s repoUri (reservedFieldOf st) v

/-- The Status Store's `update`, uniform in the stage kind. -/
def statusUpdate (s : EsState) (repoUri : String) (st : StageKind)
    (v : JValue) : Except EsError Unit × EsState × Nat :=
  updateRepositoryObject s repoUri (reservedFieldOf st) v

/-- The Status Store's `delete`, uniform in the stage kind. -/
def statusDelete (s : EsState) (repoUri : String) (st : StageKind) :
    Except EsError Unit × EsState × Nat :=
  deleteRepositoryObject s repoUri (reservedFieldOf st)

end RepositoryObjectClient

/-!
Embedding of the plugin startup sequence, `init` in
`src/kibana-extra/code/index.ts`, and of its configuration surface.
-/

/-- The plugin's configuration surface, with the Joi schema's defaults
(from the `config` block of `index.ts`). -/
structure CodeConfig : Type where
  enabled : Bool
  queueIndex : String
  queueTimeout : Nat
  updateFrequencyMs : Nat
  indexFrequencyMs : Nat
  updateRepoFrequencyMs : Nat
  indexRepoFrequencyMs : Nat
  lspRequestTimeoutMs : Nat
  maxWorkspace : Nat
  isAdmin : Bool
  disableScheduler : Bool
  enableGlobalReference : Bool

/-- The defaults of the Joi schema in `config` (durations already in
milliseconds, as `moment.duration(...).asMilliseconds()` yields them). -/
def configDefault : CodeConfig :=
  { enabled := true
    queueIndex := ".code-worker-queue"
    queueTimeout := 3600000
    updateFrequencyMs := 300000
    indexFrequencyMs := 86400000
    updateRepoFrequencyMs := 3600000
    indexRepoFrequencyMs := 86400000
    lspRequestTimeoutMs := 10000
    maxWorkspace := 5
    isAdmin := true
    disableScheduler := true
    enableGlobalReference := false }

/-- The slice of `ServerOptions` that `init` reads. -/
structure ServerOptions : Type where
  disableScheduler : Bool

/-- Modelled from the spec: the `ServerOptions` constructor (not under
src) carries the consumed configuration surface through to `init`,
including the scheduler enable/disable switch. -/
def serverOptionsOf (c : CodeConfig) : ServerOptions :=
  { disableScheduler := c.disableScheduler }

/-- The externally observable steps of `init`, in program order. -/
inductive InitEvent : Type where
  | migrateIndices
  | createQueue
  | bindIndexWorker
  | bindCloneWorker
  | bindDeleteWorker
  | bindUpdateWorker
  | startUpdateScheduler
  | startIndexScheduler
  | registerRoutes
deriving DecidableEq

/-- The trace of `init`: `await tryMigrateIndices` runs first; when it
fails the async function rejects and nothing after it runs (second
component false); otherwise the queue is created, the four workers are
bound in source order, the two schedulers are started only when
`serverOptions.disableScheduler` is false, and the routes are
registered. -/
def initTrace (migrationOk : Bool) (opts : ServerOptions) :
    List InitEvent × Bool :=
  if migrationOk then
    ([InitEvent.migrateIndices, InitEvent.createQueue,
      InitEvent.bindIndexWorker, InitEvent.bindCloneWorker,
      InitEvent.bindDeleteWorker, InitEvent.bindUpdateWorker] ++
      (if opts.disableScheduler then []
        else [InitEvent.startUpdateScheduler,
          InitEvent.startIndexScheduler]) ++
      [InitEvent.registerRoutes], true)
  else ([InitEvent.migrateIndices], false)

/-- Whether an event is the binding of a worker to the queue. -/
def isBindEvent : InitEvent → Bool
  | InitEvent.bindIndexWorker => true
  | InitEvent.bindCloneWorker => true
  | InitEvent.bindDeleteWorker => true
  | InitEvent.bindUpdateWorker => true
  | _ => false

/-- Modelled from the spec: a scheduler, once started, ticks periodically
at its fixed interval; a scheduler that was never started performs no
ticks at all. `started` is whether `start()` was called, `n` bounds the
observation window; the result lists the ticks observed. -/
def schedulerTicks (started : Bool) (n : Nat) : List Nat :=
  if started then List.range n else []

namespace RepositoryObjectClient

/-- `getRepositoryGitStatus`. -/
def getRepositoryGitStatus (s : EsState) (repoUri : String) :
    Except EsError (Option JValue) × EsState × Nat :=
  getRepositoryObject s repoUri RepositoryGitStatusReservedField

/-- `getRepositoryLspIndexStatus`. -/
def getRepositoryLspIndexStatus (s : EsState) (repoUri : String) :
    Except EsError (Option JValue) × EsState × Nat :=
  getRepositoryObject s repoUri RepositoryLspIndexStatusReservedField

/-- `getRepositoryDeleteStatus`. -/
def getRepositoryDeleteStatus (s : EsState) (repoUri : String) :
    Except EsError (Option JValue) × EsState × Nat :=
  getRepositoryObject s repoUri RepositoryDeleteStatusReservedField

/-- `setRepositoryGitStatus`. -/
def setRepositoryGitStatus (s : EsState) (repoUri : String) (v : JValue) :
    Except EsError Unit × EsState × Nat :=
  setRepositoryObject s repoUri RepositoryGitStatusReservedField v

/-- `setRepositoryLspIndexStatus`. -/
def setRepositoryLspIndexStatus (s : EsState) (repoUri : String) (v : JValue) :
    Except EsError Unit × EsState × Nat :=
  setRepositoryObject s repoUri RepositoryLspIndexStatusReservedField v

/-- `setRepositoryDeleteStatus`. -/
def setRepositoryDeleteStatus (s : EsState) (repoUri : String) (v : JValue) :
    Except EsError Unit × EsState × Nat :=
  setRepositoryObject s repoUri RepositoryDeleteStatusReservedField v

/-- `setRepository`. -/
def setRepository (s : EsState) (repoUri : String) (v : JValue) :
    Except EsError Unit × EsState × Nat :=
  setRepositoryObject s repoUri RepositoryReservedField v

/-- `updateRepositoryGitStatus`. -/
def updateRepositoryGitStatus (s : EsState) (repoUri : String) (v : JValue) :
    Except EsError Unit × EsState × Nat :=
  updateRepositoryObject s repoUri RepositoryGitStatusReservedField v

/-- `updateRepositoryLspIndexStatus`. -/
def updateRepositoryLspIndexStatus (s : EsState) (repoUri : String)
    (v : JValue) : Except EsError Unit × EsState × Nat :=
  updateRepositoryObject s repoUri RepositoryLspIndexStatusReservedField v

/-- `updateRepositoryDeleteStatus`. -/
def updateRepositoryDeleteStatus (s : EsState) (repoUri : String)
    (v : JValue) : Except EsError Unit × EsState × Nat :=
  updateRepositoryObject s repoUri RepositoryDeleteStatusReservedField v

/-- `updateRepository`. -/
def updateRepository (s : EsState) (repoUri : String) (v : JValue) :
    Except EsError Unit × EsState × Nat :=
  updateRepositoryObject s repoUri RepositoryReservedField v

end RepositoryObjectClient

/-! Concrete sample inputs used by the witness theorems. -/

/-- A sample stored git-status record with two fields. -/
def sampleOld : List (String × JValue) :=
  [("progress", JValue.num 10), ("state", JValue.str "Running")]

/-- A sample partial value mentioning only one of the record's fields. -/
def samplePs : List (String × JValue) :=
  [("progress", JValue.num 50)]

/-- A store holding the sample git-status record for repository "r". -/
def sampleState : EsState :=
  (RepositoryObjectClient.statusSet [] "r" StageKind.gitCloneStatus
    (JValue.obj sampleOld)).2.1

/-- A store holding the metadata records of two repositories. -/
def sampleRepos : EsState :=
  [(RepositoryObjectClient.objectKey "r1" RepositoryReservedField,
      [(RepositoryReservedField, JValue.str "r1")]),
    (RepositoryObjectClient.objectKey "r2" RepositoryReservedField,
      [(RepositoryReservedField, JValue.str "r2")])]

/-! Helper lemmas about the document store. -/

theorem getDoc_putDoc_self (s : EsState) (k : DocKey) (d : Doc) :
    getDoc (putDoc s k d) k = some d := by
  simp [putDoc, getDoc]

theorem getDoc_removeDoc_self (s : EsState) (k : DocKey) :
    getDoc (removeDoc s k) k = none := by
  induction s with
  | nil => rfl
  | cons kd s ih =>
    obtain ⟨k0, d⟩ := kd
    by_cases h : k0 = k
    · simp [removeDoc, h, ih]
    · simp [removeDoc, getDoc, h, ih]

theorem removeDoc_removeDoc (s : EsState) (k : DocKey) :
    removeDoc (removeDoc s k) k = removeDoc s k := by
  induction s with
  | nil => rfl
  | cons kd s ih =>
    obtain ⟨k0, d⟩ := kd
    by_cases h : k0 = k
    · simp [removeDoc, h, ih]
    · simp [removeDoc, h, ih]

/-! Helper lemmas about field lookup and merging. -/

theorem lookupField_setFieldWith_self (c : JValue → JValue → JValue)
    (fs : List (String × JValue)) (k : String) (w : JValue) :
    lookupField (setFieldWith c fs k w) k =
      some (match lookupField fs k with
        | some v => c v w
        | none => w) := by
  induction fs with
  | nil => simp [setFieldWith, lookupField]
  | cons kv fs ih =>
    obtain ⟨k0, v⟩ := kv
    by_cases h : k0 = k
    · simp [setFieldWith, lookupField, h]
    · simp [setFieldWith, lookupField, h, ih]

theorem lookupField_setFieldWith_ne (c : JValue → JValue → JValue)
    (fs : List (String × JValue)) (k k' : String) (w : JValue)
    (h : k' ≠ k) :
    lookupField (setFieldWith c fs k w) k' = lookupField fs k' := by
  induction fs with
  | nil =>
    have h2 : ¬(k = k') := fun e => h e.symm
    simp [setFieldWith, lookupField, h2]
  | cons kv fs ih =>
    obtain ⟨k0, v⟩ := kv
    have h3 : ¬(k = k') := fun e => h e.symm
    by_cases h0 : k0 = k
    · have h2 : ¬(k0 = k') := fun e => h ((h0.symm.trans e).symm)
      simp [setFieldWith, lookupField, h0, h2, h3]
    · by_cases h1 : k0 = k'
      · simp [setFieldWith, lookupField, h0, h1, h]
      · simp [setFieldWith, lookupField, h0, h1, ih]

theorem lookupField_eq_none_of_not_mem (gs : List (String × JValue))
    (k : String) (h : k ∉ gs.map Prod.fst) : lookupField gs k = none := by
  induction gs with
  | nil => rfl
  | cons kv gs ih =>
    obtain ⟨k0, v⟩ := kv
    simp only [List.map_cons, List.mem_cons, not_or] at h
    obtain ⟨h1, h2⟩ := h
    have h3 : ¬(k0 = k) := fun e => h1 e.symm
    simp [lookupField, h3, ih h2]

theorem lookupField_mergeRecord_of_none (gs : List (String × JValue))
    (k : String) :
    ∀ fs : List (String × JValue), lookupField gs k = none →
      lookupField (mergeRecord fs gs) k = lookupField fs k := by
  induction gs with
  | nil => intro fs _; rfl
  | cons kv gs ih =>
    intro fs h
    obtain ⟨k0, w⟩ := kv
    have hne : ¬(k0 = k) := by
      intro e
      simp [lookupField, e] at h
    have htl : lookupField gs k = none := by
      simpa [lookupField, hne] using h
    have hstep : mergeRecord fs ((k0, w) :: gs) =
        mergeRecord (setFieldWith (fun _ w => w) fs k0 w) gs := rfl
    rw [hstep, ih _ htl, lookupField_setFieldWith_ne]
    exact fun e => hne e.symm

theorem lookupField_mergeRecord_of_some (gs : List (String × JValue))
    (k : String) (w : JValue) :
    ∀ fs : List (String × JValue), (gs.map Prod.fst).Nodup →
      lookupField gs k = some w →
      lookupField (mergeRecord fs gs) k = some w := by
  induction gs with
  | nil => intro fs _ h; simp [lookupField] at h
  | cons kv gs ih =>
    intro fs hnd h
    obtain ⟨k0, w0⟩ := kv
    simp only [List.map_cons] at hnd
    have hstep : mergeRecord fs ((k0, w0) :: gs) =
        mergeRecord (setFieldWith (fun _ v => v) fs k0 w0) gs := rfl
    rw [hstep]
    by_cases h0 : k0 = k
    · have hw : w0 = w := by
        have := h
        simp [lookupField, h0] at this
        exact this
      have hk0 : k0 ∉ gs.map Prod.fst := (List.nodup_cons.mp hnd).1
      have hnone : lookupField gs k = none :=
        lookupField_eq_none_of_not_mem gs k (h0 ▸ hk0)
      rw [lookupField_mergeRecord_of_none gs k _ hnone]
      subst h0
      subst hw
      rw [lookupField_setFieldWith_self]
      cases lookupField fs k0 <;> rfl
    · have htl : lookupField gs k = some w := by
        simpa [lookupField, h0] using h
      exact ih _ (List.nodup_cons.mp hnd).2 htl

open RepositoryObjectClient

theorem getRepositoryObject_calls (s : EsState) (uri f : String) :
    (getRepositoryObject s uri f).2.2 = 1 := by
  unfold getRepositoryObject
  cases esGet s (objectKey uri f) <;> rfl

theorem updateRepositoryObject_calls (s : EsState) (uri f : String)
    (v : JValue) : (updateRepositoryObject s uri f v).2.2 = 1 := by
  unfold updateRepositoryObject
  cases esUpdate s (objectKey uri f) [(f, v)] <;> rfl

/-- C1: for every repository uri, every stage kind, and every value, the
Status Store's `set` for that (uri, stage) followed by `get` for the same
(uri, stage) returns exactly the value that was written. -/
theorem set_then_get_roundtrip (s : EsState) (uri : String)
    (st : StageKind) (v : JValue) :
    (statusGet (statusSet s uri st v).2.1 uri st).1 =
      Except.ok (some v) := by
  simp only [statusGet, statusSet, getRepositoryObject, setRepositoryObject,
    esGet, esIndex, getDoc_putDoc_self]
  simp [lookupField]

/-- C2: the Status Store's `delete` never errors (in particular deleting an
absent record, or the same record a second time, is not an error), the
second delete leaves the store as the first left it, and a `get` for the
deleted (uri, stage) afterwards fails with NotFound. -/
theorem delete_idempotent_get_notFound (s : EsState) (uri : String)
    (st : StageKind) :
    (statusDelete s uri st).1 = Except.ok () ∧
    (statusDelete (statusDelete s uri st).2.1 uri st).1 = Except.ok () ∧
    (statusDelete (statusDelete s uri st).2.1 uri st).2.1 =
      (statusDelete s uri st).2.1 ∧
    (statusGet (statusDelete s uri st).2.1 uri st).1 =
      Except.error EsError.notFound := by
  refine ⟨rfl, rfl, ?_, ?_⟩
  · simp only [statusDelete, deleteRepositoryObject, esDelete]
    exact removeDoc_removeDoc s _
  · simp [statusGet, statusDelete, getRepositoryObject,
      deleteRepositoryObject, esGet, esDelete, getDoc_removeDoc_self]

/-- C3: for an existing record (an object with fields `old`), `update`
with a partial value whose fields are a subset of the record's fields
succeeds, the stored record becomes the field-merge of `old` with the
partial value, every field not mentioned in the partial value is
unchanged, and every mentioned field now holds the partial value's
field. -/
theorem update_partial_merge (s : EsState) (uri : String) (st : StageKind)
    (old ps : List (String × JValue))
    (hget : (statusGet s uri st).1 = Except.ok (some (JValue.obj old)))
    (hsub : ∀ kw ∈ ps, (lookupField old kw.1).isSome = true)
    (hnd : (ps.map Prod.fst).Nodup) :
    (statusUpdate s uri st (JValue.obj ps)).1 = Except.ok () ∧
    (statusGet (statusUpdate s uri st (JValue.obj ps)).2.1 uri st).1 =
      Except.ok (some (JValue.obj (mergeRecord old ps))) ∧
    (∀ k, lookupField ps k = none →
      lookupField (mergeRecord old ps) k = lookupField old k) ∧
    (∀ k w, lookupField ps k = some w →
      lookupField (mergeRecord old ps) k = some w) := by
  have hdoc : ∃ doc,
      getDoc s (objectKey uri (reservedFieldOf st)) = some doc ∧
      lookupField doc (reservedFieldOf st) = some (JValue.obj old) := by
    cases hd : getDoc s (objectKey uri (reservedFieldOf st)) with
    | none => simp [statusGet, getRepositoryObject, esGet, hd] at hget
    | some doc =>
      refine ⟨doc, rfl, ?_⟩
      simpa [statusGet, getRepositoryObject, esGet, hd] using hget
  obtain ⟨doc, hd, hfield⟩ := hdoc
  have hmerge : mergeDoc doc [(reservedFieldOf st, JValue.obj ps)] =
      setFieldWith mergeValue doc (reservedFieldOf st) (JValue.obj ps) := rfl
  refine ⟨?_, ?_, ?_, ?_⟩
  · simp [statusUpdate, updateRepositoryObject, esUpdate, hd]
  · simp only [statusUpdate, updateRepositoryObject, esUpdate, hd]
    simp only [statusGet, getRepositoryObject, esGet, getDoc_putDoc_self,
      hmerge]
    rw [lookupField_setFieldWith_self, hfield]
    rfl
  · intro k hk
    exact lookupField_mergeRecord_of_none ps k old hk
  · intro k w hw
    exact lookupField_mergeRecord_of_some ps k w old hnd hw

/-- C4: `update` on a (uri, stage) with no record fails with NotFound and
leaves the store exactly as it was (no implicit create). -/
theorem update_absent_notFound_state_unchanged (s : EsState) (uri : String)
    (st : StageKind) (p : JValue)
    (h : getDoc s (objectKey uri (reservedFieldOf st)) = none) :
    (statusUpdate s uri st p).1 = Except.error EsError.notFound ∧
    (statusUpdate s uri st p).2.1 = s := by
  constructor <;> simp [statusUpdate, updateRepositoryObject, esUpdate, h]

/-- C5: `get` on a (uri, stage) with no record fails with NotFound. -/
theorem get_absent_notFound (s : EsState) (uri : String) (st : StageKind)
    (h : getDoc s (objectKey uri (reservedFieldOf st)) = none) :
    (statusGet s uri st).1 = Except.error EsError.notFound := by
  simp [statusGet, getRepositoryObject, esGet, h]

/-- C6: `getAllRepository` returns at most the fixed page bound of 10000
entries; its result is the field extraction over the search hits, and
those hits never contain the same document (repository namespace) twice
when the store's keys are unique. -/
theorem getAllRepository_bounded_nodup (s : EsState)
    (h : (s.map Prod.fst).Nodup) :
    (getAllRepository s).1.length ≤ 10000 ∧
    (getAllRepository s).1 =
      (esSearch s RepositoryIndexNamePrefix RepositoryTypeName
          RepositoryReservedField 0 10000).map
        (fun hit => lookupField hit.2 RepositoryReservedField) ∧
    ((esSearch s RepositoryIndexNamePrefix RepositoryTypeName
        RepositoryReservedField 0 10000).map Prod.fst).Nodup := by
  have hsub : List.Sublist (esSearch s RepositoryIndexNamePrefix
      RepositoryTypeName RepositoryReservedField 0 10000) s := by
    unfold esSearch
    have t1 := List.take_sublist 10000
      ((s.filter fun kd =>
        RepositoryIndexNamePrefix.isPrefixOf kd.1.index &&
          kd.1.docType == RepositoryTypeName &&
          (lookupField kd.2 RepositoryReservedField).isSome).drop 0)
    have t2 := List.drop_sublist 0
      (s.filter fun kd =>
        RepositoryIndexNamePrefix.isPrefixOf kd.1.index &&
          kd.1.docType == RepositoryTypeName &&
          (lookupField kd.2 RepositoryReservedField).isSome)
    have t3 := List.filter_sublist (p := fun kd =>
      RepositoryIndexNamePrefix.isPrefixOf kd.1.index &&
        kd.1.docType == RepositoryTypeName &&
        (lookupField kd.2 RepositoryReservedField).isSome) s
    exact (t1.trans t2).trans t3
  refine ⟨?_, rfl, ?_⟩
  · simp only [getAllRepository, List.length_map]
    simp [esSearch, List.length_take]
  · exact h.sublist (hsub.map Prod.fst)

/-- C9: every public Status Store operation — `get`, `set`, `update`,
`delete` for each stage kind, `getRepository`, `deleteRepository`, and the
enumeration `getAllRepository` — performs exactly one call to the external
document-store client. -/
theorem every_public_op_single_es_call (s : EsState) (uri : String)
    (st : StageKind) (v p : JValue) :
    (statusGet s uri st).2.2 = 1 ∧
    (statusSet s uri st v).2.2 = 1 ∧
    (statusUpdate s uri st p).2.2 = 1 ∧
    (statusDelete s uri st).2.2 = 1 ∧
    (getRepository s uri).2.2 = 1 ∧
    (deleteRepository s uri).2.2 = 1 ∧
    (getAllRepository s).2.2 = 1 :=
  ⟨getRepositoryObject_calls s uri (reservedFieldOf st), rfl,
    updateRepositoryObject_calls s uri (reservedFieldOf st) p, rfl,
    getRepositoryObject_calls s uri RepositoryReservedField, rfl, rfl⟩

theorem update_partial_merge_witness :
    (statusGet sampleState "r" StageKind.gitCloneStatus).1 =
      Except.ok (some (JValue.obj sampleOld)) ∧
    (statusUpdate sampleState "r" StageKind.gitCloneStatus
        (JValue.obj samplePs)).1 = Except.ok () ∧
    (statusGet (statusUpdate sampleState "r" StageKind.gitCloneStatus
          (JValue.obj samplePs)).2.1 "r" StageKind.gitCloneStatus).1 =
      Except.ok (some (JValue.obj (mergeRecord sampleOld samplePs))) ∧
    (∀ k, lookupField samplePs k = none →
      lookupField (mergeRecord sampleOld samplePs) k =
        lookupField sampleOld k) ∧
    (∀ k w, lookupField samplePs k = some w →
      lookupField (mergeRecord sampleOld samplePs) k = some w) := by
  have hget : (statusGet sampleState "r" StageKind.gitCloneStatus).1 =
      Except.ok (some (JValue.obj sampleOld)) := rfl
  have hsub : ∀ kw ∈ samplePs, (lookupField sampleOld kw.1).isSome = true := by
    intro kw hkw
    have he : kw = ("progress", JValue.num 50) := by
      simpa [samplePs] using hkw
    subst he
    rfl
  have hnd : (samplePs.map Prod.fst).Nodup := by simp [samplePs]
  have h := update_partial_merge sampleState "r" StageKind.gitCloneStatus
    sampleOld samplePs hget hsub hnd
  exact ⟨hget, h.1, h.2.1, h.2.2.1, h.2.2.2⟩

theorem update_absent_notFound_state_unchanged_witness :
    getDoc [] (objectKey "r" (reservedFieldOf StageKind.lspIndexStatus)) =
      none ∧
    (statusUpdate [] "r" StageKind.lspIndexStatus (JValue.num 1)).1 =
      Except.error EsError.notFound ∧
    (statusUpdate [] "r" StageKind.lspIndexStatus (JValue.num 1)).2.1 =
      [] := by
  have h := update_absent_notFound_state_unchanged [] "r"
    StageKind.lspIndexStatus (JValue.num 1) rfl
  exact ⟨rfl, h.1, h.2⟩

theorem get_absent_notFound_witness :
    getDoc [] (objectKey "r" (reservedFieldOf StageKind.gitCloneStatus)) =
      none ∧
    (statusGet [] "r" StageKind.gitCloneStatus).1 =
      Except.error EsError.notFound :=
  ⟨rfl, get_absent_notFound [] "r" StageKind.gitCloneStatus rfl⟩

theorem getAllRepository_bounded_nodup_witness :
    (sampleRepos.map Prod.fst).Nodup ∧
    (getAllRepository sampleRepos).1.length ≤ 10000 ∧
    ((esSearch sampleRepos RepositoryIndexNamePrefix RepositoryTypeName
        RepositoryReservedField 0 10000).map Prod.fst).Nodup := by
  have hnd : (sampleRepos.map Prod.fst).Nodup := by decide
  have h := getAllRepository_bounded_nodup sampleRepos hnd
  exact ⟨hnd, h.1, h.2.2⟩

/-- C7: the migration step is the first step of `init`, so it completes
(or fails) before the queue is created and before any worker binds; and
when migration fails, `init` aborts: the queue is never created and no
worker ever binds. -/
theorem migration_before_queue_and_binds (m : Bool) (opts : ServerOptions) :
    (initTrace m opts).1.head? = some InitEvent.migrateIndices ∧
    (m = false →
      (initTrace m opts).2 = false ∧
      InitEvent.createQueue ∉ (initTrace m opts).1 ∧
      ∀ e ∈ (initTrace m opts).1, isBindEvent e = false) := by
  obtain ⟨d⟩ := opts
  cases m <;> cases d <;> exact ⟨rfl, by decide⟩

theorem migration_before_queue_and_binds_witness :
    (initTrace false { disableScheduler := true }).1.head? =
      some InitEvent.migrateIndices ∧
    (initTrace false { disableScheduler := true }).2 = false ∧
    InitEvent.createQueue ∉
      (initTrace false { disableScheduler := true }).1 ∧
    ∀ e ∈ (initTrace false { disableScheduler := true }).1,
      isBindEvent e = false :=
  ⟨(migration_before_queue_and_binds false { disableScheduler := true }).1,
    ((migration_before_queue_and_binds false
      { disableScheduler := true }).2 rfl).1,
    ((migration_before_queue_and_binds false
      { disableScheduler := true }).2 rfl).2.1,
    ((migration_before_queue_and_binds false
      { disableScheduler := true }).2 rfl).2.2⟩

/-- C8: when the scheduler-disable switch is set, `init` starts neither
the Update Scheduler nor the Index Scheduler, so (with ticks possible
only after `start()`) neither scheduler ever ticks at all. -/
theorem schedulers_disabled_never_tick (m : Bool) (n : Nat) :
    InitEvent.startUpdateScheduler ∉
      (initTrace m { disableScheduler := true }).1 ∧
    InitEvent.startIndexScheduler ∉
      (initTrace m { disableScheduler := true }).1 ∧
    schedulerTicks ((initTrace m { disableScheduler := true }).1.contains
      InitEvent.startUpdateScheduler) n = [] ∧
    schedulerTicks ((initTrace m { disableScheduler := true }).1.contains
      InitEvent.startIndexScheduler) n = [] := by
  cases m <;> exact ⟨by decide, by decide, rfl, rfl⟩

/-- C10: the configuration's scheduler-disable switch defaults to true, so
an unmodified configuration never starts either scheduler; only a
configuration that explicitly sets the switch to false makes `init` start
them. -/
theorem default_config_disables_schedulers (m : Bool) (n : Nat) :
    configDefault.disableScheduler = true ∧
    InitEvent.startUpdateScheduler ∉
      (initTrace m (serverOptionsOf configDefault)).1 ∧
    InitEvent.startIndexScheduler ∉
      (initTrace m (serverOptionsOf configDefault)).1 ∧
    schedulerTicks
      ((initTrace m (serverOptionsOf configDefault)).1.contains
        InitEvent.startUpdateScheduler) n = [] ∧
    InitEvent.startUpdateScheduler ∈
      (initTrace true { disableScheduler := false }).1 := by
  cases m <;> exact ⟨rfl, by decide, by decide, rfl, by decide⟩
